import Mathlib

/-!
# TeleportRoleV7: conversion, codec delegation, deep copy, status accessor

Shallow embedding of `integrations/operator/apis/resources/v1/rolev7_types.go`.

* Go structs are Lean structures; embedded structs (`metav1.TypeMeta`,
  `metav1.ObjectMeta`) are parent structures, so that `r.Name`, `r.Labels`
  and `r.Annotations` are the promoted fields, as in Go.
* A Go `map[string]string` is `GoMap`: the nil map, or a list of bindings.
* A Go slice is a `List` (a nil slice and an empty slice are both `[]`).
* Pointers to a `TeleportRoleV7Spec` are addresses in a `SpecHeap`; a pointer
  to a field of an envelope is a `FieldRef` (a load and a store).
* A Go `error` is `GoError`; a panic is the `Except.error` outcome of a call.
* `types.RoleSpecV6`, its zero value and its generated `Marshal`/`Unmarshal`
  live in package `api/types`; the type is a parameter `RoleSpecV6` and the
  three operations are the fields of a `RoleSpecV6Codec`.
-/

namespace TeleportOperator

/-! ## Go values used by the file -/

/-- Go `error` values (the message is all that is kept). -/
abbrev GoError := String

/-- Go `[]byte`. -/
abbrev Bytes := List (Fin 256)

/-- Go `map[string]string`: `nil` is the nil map, `mk l` a map holding the
bindings of `l` (the value of a key is its first binding). -/
inductive GoMap where
  | nil : GoMap
  | mk (entries : List (String × String)) : GoMap
  deriving DecidableEq, Repr

/-- Comma-ok lookup `v, ok := m[k]`, as an option. -/
def GoMap.find (m : GoMap) (k : String) : Option String :=
  match m with
  | GoMap.nil => none
  | GoMap.mk l => l.lookup k

/-- Go index expression `m[k]`: the zero value `""` when `k` is absent,
also on the nil map. -/
def GoMap.index (m : GoMap) (k : String) : String :=
  (m.find k).getD ""

/-- The map that binds `k` to `v` and every other key as `m` does: for a
non-nil `m`, the map after the Go assignment `m[k] = v`. -/
def GoMap.insert (m : GoMap) (k v : String) : GoMap :=
  match m with
  | GoMap.nil => GoMap.mk [(k, v)]
  | GoMap.mk l => GoMap.mk ((k, v) :: l.filter (fun p => p.1 != k))

/-- The map after Go `delete(m, k)`: `k` is unbound, every other key is
bound as in `m`. -/
def GoMap.delete (m : GoMap) (k : String) : GoMap :=
  match m with
  | GoMap.nil => GoMap.nil
  | GoMap.mk l => GoMap.mk (l.filter (fun p => p.1 != k))

/-! ## Kubernetes metadata (`metav1`) -/

/-- Modelled from the spec: the `metav1.TypeMeta` struct of the Kubernetes
library, the "top-level discriminator fields for kind and schema version" of
an envelope. -/
structure TypeMeta where
  Kind : String
  APIVersion : String
  deriving DecidableEq, Repr

/-- Modelled from the spec: the `metav1.ObjectMeta` struct of the Kubernetes
library, with the identity fields of the data model:
`Identity: {Name, Labels, Annotations}`. -/
structure ObjectMeta where
  Name : String
  Labels : GoMap
  Annotations : GoMap
  deriving DecidableEq, Repr

/-- Modelled from the spec: the `metav1.ConditionStatus` values of the
Kubernetes library, `enum{True,False,Unknown}`, under the names of the Go
constants. -/
inductive ConditionStatus where
  | ConditionTrue
  | ConditionFalse
  | ConditionUnknown
  deriving DecidableEq, Repr

/-- Modelled from the spec: the `metav1.Condition` struct of the Kubernetes
library, `{Type, Status, Reason, Message, LastTransitionTime}`; the Go field
`Type` is `Type_` (`Type` is reserved), and `LastTransitionTime` is a
timestamp counted in ticks. -/
structure Condition where
  Type_ : String
  Status : ConditionStatus
  Reason : String
  Message : String
  LastTransitionTime : Nat
  deriving DecidableEq, Repr

/-! ## Package `resources` -/

/-- Modelled from the spec: the `resources.Status` struct, whose declaration
is in package `integrations/operator/apis/resources`; the data model gives
it as `Status: {Conditions: ordered sequence of Condition}`. -/
structure Status where
  Conditions : List Condition
  deriving DecidableEq, Repr

/-! ## Package `api/types` -/

/-- Modelled from the spec: the constant `types.KindRole`, declared in
package `api/types`; the domain object has `Kind: "role"`. -/
def KindRole : String := "role"

/-- Modelled from the spec: the constant `types.V7`, declared in package
`api/types`; the domain object has `Version: "v7"`. -/
def V7 : String := "v7"

/-- Modelled from the spec: the `types.Metadata` struct, declared in package
`api/types`; the domain object has `Metadata:{Name, Labels, Description}`. -/
structure Metadata where
  Name : String
  Labels : GoMap
  Description : String
  deriving DecidableEq, Repr

/-- Modelled from the spec: the `types.RoleV6` struct, declared in package
`api/types`: `{Kind, Version, Metadata, Spec: <domain spec>}`. -/
structure RoleV6 (RoleSpecV6 : Type) where
  Kind : String
  Version : String
  Metadata : Metadata
  Spec : RoleSpecV6

/-- What the file uses of `types.RoleSpecV6` besides the type itself: its
zero value and its generated binary codec. `Unmarshal recv data` is the call
`recv.Unmarshal(data)` on a pointer receiver: it returns the content of the
receiver after the call together with the returned error (`none` is a nil
error); the receiver is not reset by the call, and after a failure it holds
whatever was decoded up to the failure. -/
structure RoleSpecV6Codec (RoleSpecV6 : Type) where
  zero : RoleSpecV6
  Marshal : RoleSpecV6 → Except GoError Bytes
  Unmarshal : RoleSpecV6 → Bytes → RoleSpecV6 × Option GoError

/-- Modelled from the spec: the round-trip law of the domain codec, the
generated `Marshal` and `Unmarshal` of `types.RoleSpecV6` in package
`api/types`: "for all valid domain specs `s`, `Unmarshal(Marshal(s)) == s`",
the decoding being into a fresh zero value. What makes a domain spec valid is
left to the domain: `valid` is a parameter. -/
def DomainRoundTrip {RoleSpecV6 : Type} (c : RoleSpecV6Codec RoleSpecV6)
    (valid : RoleSpecV6 → Prop) : Prop :=
  ∀ d, valid d → ∃ b, c.Marshal d = Except.ok b ∧ c.Unmarshal c.zero b = (d, none)

/-! ## `rolev7_types.go` -/

/-- Go `type TeleportRoleV7Spec types.RoleSpecV6`: a defined type with the
same underlying struct. The conversion `types.RoleSpecV6(s)` is
`s.toRoleSpecV6`, the conversion `TeleportRoleV7Spec(d)` is
`TeleportRoleV7Spec.mk d`. -/
structure TeleportRoleV7Spec (RoleSpecV6 : Type) where
  toRoleSpecV6 : RoleSpecV6

/-- Go `type TeleportRoleV7 struct`: the envelope. -/
structure TeleportRoleV7 (RoleSpecV6 : Type) extends TypeMeta, ObjectMeta where
  Spec : TeleportRoleV7Spec RoleSpecV6
  Status : Status

/-- Go `func (r TeleportRoleV7) ToTeleport() types.Role`. The constant
`resources.DescriptionKey` is declared in package `resources` and is the
parameter `DescriptionKey`. -/
def TeleportRoleV7.ToTeleport {RoleSpecV6 : Type} (DescriptionKey : String)
    (r : TeleportRoleV7 RoleSpecV6) : RoleV6 RoleSpecV6 :=
  { Kind := KindRole
    Version := V7
    Metadata :=
      { Name := r.Name
        Labels := r.Labels
        Description := r.Annotations.index DescriptionKey }
    Spec := r.Spec.toRoleSpecV6 }

/-- Go `func (spec *TeleportRoleV7Spec) Marshal() ([]byte, error)`, on the
content `spec` of the receiver. -/
def TeleportRoleV7Spec.Marshal {RoleSpecV6 : Type} (c : RoleSpecV6Codec RoleSpecV6)
    (spec : TeleportRoleV7Spec RoleSpecV6) : Except GoError Bytes :=
  c.Marshal spec.toRoleSpecV6

/-- Go `func (spec *TeleportRoleV7Spec) Unmarshal(data []byte) error`: the
content of the receiver after the call, and the returned error. -/
def TeleportRoleV7Spec.Unmarshal {RoleSpecV6 : Type} (c : RoleSpecV6Codec RoleSpecV6)
    (spec : TeleportRoleV7Spec RoleSpecV6) (data : Bytes) :
    TeleportRoleV7Spec RoleSpecV6 × Option GoError :=
  let r := c.Unmarshal spec.toRoleSpecV6 data
  (TeleportRoleV7Spec.mk r.1, r.2)

/-- Memory holding `TeleportRoleV7Spec` values: an address (a non-nil
`*TeleportRoleV7Spec`) maps to the value stored there. -/
abbrev SpecHeap (RoleSpecV6 : Type) := Nat → TeleportRoleV7Spec RoleSpecV6

/-- Go `func (spec *TeleportRoleV7Spec) DeepCopyInto(out *TeleportRoleV7Spec)`.
`Except.ok h1` is a normal return with memory `h1`; `Except.error (e, h1)` is
`panic(e)` with memory `h1` at the time of the panic. -/
def TeleportRoleV7Spec.DeepCopyInto {RoleSpecV6 : Type} (c : RoleSpecV6Codec RoleSpecV6)
    (spec out : Nat) (h : SpecHeap RoleSpecV6) :
    Except (GoError × SpecHeap RoleSpecV6) (SpecHeap RoleSpecV6) :=
  match TeleportRoleV7Spec.Marshal c (h spec) with
  | Except.error err => Except.error (err, h)
  | Except.ok data =>
    let h1 := Function.update h out (TeleportRoleV7Spec.mk c.zero)
    let r := TeleportRoleV7Spec.Unmarshal c (h1 out) data
    let h2 := Function.update h1 out r.1
    match r.2 with
    | some err => Except.error (err, h2)
    | none => Except.ok h2

/-- A pointer to a field of type `β` inside a value of type `α`: reading
through it and assigning through it. -/
structure FieldRef (α β : Type) where
  load : α → β
  store : β → α → α

/-- Go `func (r *TeleportRoleV7) StatusConditions() *[]metav1.Condition`:
the address of `r.Status.Conditions`. -/
def TeleportRoleV7.StatusConditions {RoleSpecV6 : Type} :
    FieldRef (TeleportRoleV7 RoleSpecV6) (List Condition) :=
  { load := fun r => r.Status.Conditions
    store := fun c r => { r with Status := { r.Status with Conditions := c } } }

/-! ## The reconciliation controller's upsert -/

/-- Modelled from the spec: the upsert by `Condition.Type` that the
reconciliation controller performs on the sequence behind the accessor (the
helper itself is not part of this file): "replacing the entry whose Type
matches, or appending a new entry, and refreshing LastTransitionTime only
when Status or Reason changes". `now` is the time of the call. -/
def upsertCondition (now : Nat) (c : Condition) : List Condition → List Condition
  | [] => [{ c with LastTransitionTime := now }]
  | x :: xs =>
    if x.Type_ = c.Type_ then
      { c with LastTransitionTime :=
          if x.Status ≠ c.Status ∨ x.Reason ≠ c.Reason then now
          else x.LastTransitionTime } :: xs
    else x :: upsertCondition now c xs

/-- One upsert made through the accessor: read the sequence through the
pointer that `StatusConditions` returns, upsert, assign through the pointer. -/
def upsertThroughAccessor {RoleSpecV6 : Type} (r : TeleportRoleV7 RoleSpecV6)
    (u : Nat × Condition) : TeleportRoleV7 RoleSpecV6 :=
  TeleportRoleV7.StatusConditions.store
    (upsertCondition u.1 u.2 (TeleportRoleV7.StatusConditions.load r)) r

/-- No two conditions of the sequence share the same `Type`. -/
def UniqueTypes (cs : List Condition) : Prop :=
  (cs.map Condition.Type_).Nodup

instance (cs : List Condition) : Decidable (UniqueTypes cs) := by
  unfold UniqueTypes; infer_instance

/-! ## Concrete inputs -/

/-- A small domain specification for concrete runs: the rule set, each rule
a code. -/
structure ExampleSpec where
  Rules : List Nat
  deriving DecidableEq, Repr

/-- Decoder of `exampleCodec`: every byte but 255 is one rule, appended to
the rules the receiver already holds; byte 255 is rejected. -/
def exampleDecode : List Nat → Bytes → List Nat × Option GoError
  | acc, [] => (acc, none)
  | acc, b :: bs =>
    if b.val = 255 then (acc, some "unexpected byte")
    else exampleDecode (acc ++ [b.val]) bs

/-- A binary codec for `ExampleSpec`: one byte per rule; a rule code above
254 cannot be encoded. -/
def exampleCodec : RoleSpecV6Codec ExampleSpec :=
  { zero := { Rules := [] }
    Marshal := fun s =>
      if s.Rules.all (fun r => decide (r < 255)) then
        Except.ok (s.Rules.map (fun r => Fin.ofNat r))
      else Except.error "rule out of range"
    Unmarshal := fun recv data =>
      let r := exampleDecode recv.Rules data
      ({ Rules := r.1 }, r.2) }

/-- The specs that `exampleCodec` can encode. -/
def exampleValid (s : ExampleSpec) : Prop := ∀ r ∈ s.Rules, r < 255

instance (s : ExampleSpec) : Decidable (exampleValid s) := by
  unfold exampleValid; infer_instance

/-- Memory for concrete runs: address 0 holds rules `[1, 2]`, address 1
holds rules `[9]`, address 2 holds the rule `300`, every other address the
empty rule set. -/
def exampleHeap : SpecHeap ExampleSpec := fun p =>
  match p with
  | 0 => TeleportRoleV7Spec.mk { Rules := [1, 2] }
  | 1 => TeleportRoleV7Spec.mk { Rules := [9] }
  | 2 => TeleportRoleV7Spec.mk { Rules := [300] }
  | _ => TeleportRoleV7Spec.mk { Rules := [] }

/-- The envelope of the spec's first example scenario. -/
def readerEnvelope : TeleportRoleV7 ExampleSpec :=
  { Kind := "TeleportRoleV7"
    APIVersion := "resources.teleport.dev/v1"
    Name := "reader"
    Labels := GoMap.mk [("team", "x")]
    Annotations := GoMap.mk [("desc-key", "read only")]
    Spec := TeleportRoleV7Spec.mk { Rules := [1] }
    Status := { Conditions := [] } }

/-- The condition `Ready` that is false for reason `Pending`. -/
def readyPending : Condition :=
  { Type_ := "Ready", Status := ConditionStatus.ConditionFalse, Reason := "Pending",
    Message := "", LastTransitionTime := 1 }

/-- The condition `Ready` that is true for reason `Applied`. -/
def readyApplied : Condition :=
  { Type_ := "Ready", Status := ConditionStatus.ConditionTrue, Reason := "Applied",
    Message := "", LastTransitionTime := 2 }

/-! ## Map lemmas -/

theorem GoMap.find_insert_of_ne (m : GoMap) (k v key : String) (hk : k ≠ key) :
    (m.insert k v).find key = m.find key := by
  have hkey : (key == k) = false := by
    simpa using fun h : key = k => hk h.symm
  cases m with
  | nil => simp [GoMap.insert, GoMap.find, List.lookup, hkey]
  | mk l =>
    simp only [GoMap.insert, GoMap.find, List.lookup, hkey]
    induction l with
    | nil => simp
    | cons p ps ih =>
      obtain ⟨a, b⟩ := p
      by_cases hak : a = k
      · subst hak
        simpa [List.filter, List.lookup, hkey] using ih
      · have h1 : (a != k) = true := by simpa using hak
        by_cases hka : key = a
        · subst hka
          simp [List.filter, h1, List.lookup]
        · have h2 : (key == a) = false := by simpa using hka
          simpa [List.filter, h1, List.lookup, h2] using ih

theorem GoMap.find_delete_of_ne (m : GoMap) (k key : String) (hk : k ≠ key) :
    (m.delete k).find key = m.find key := by
  cases m with
  | nil => rfl
  | mk l =>
    simp only [GoMap.delete, GoMap.find]
    induction l with
    | nil => simp
    | cons p ps ih =>
      obtain ⟨a, b⟩ := p
      by_cases hak : a = k
      · subst hak
        have hkey : (key == a) = false := by
          simpa using fun h : key = a => hk h.symm
        simpa [List.filter, List.lookup, hkey] using ih
      · have h1 : (a != k) = true := by simpa using hak
        by_cases hka : key = a
        · subst hka
          simp [List.filter, h1, List.lookup]
        · have h2 : (key == a) = false := by simpa using hka
          simpa [List.filter, h1, List.lookup, h2] using ih

/-! ## Conversion -/

/-- Claim C1: the domain object that `ToTeleport` builds carries the name of
the envelope and its labels: the very same map (nil when the envelope has no
labels, empty when they are empty), hence the same value under every key. -/
theorem ToTeleport_name_labels {RoleSpecV6 : Type} (DescriptionKey : String)
    (r : TeleportRoleV7 RoleSpecV6) :
    (r.ToTeleport DescriptionKey).Metadata.Name = r.Name ∧
    (r.ToTeleport DescriptionKey).Metadata.Labels = r.Labels ∧
    ∀ k, (r.ToTeleport DescriptionKey).Metadata.Labels.find k = r.Labels.find k :=
  ⟨rfl, rfl, fun _ => rfl⟩

/-- Claim C2: the description of the domain object is the value bound to the
reserved annotation key when the annotations hold that key, and the empty
string when they do not, in particular when the annotation map is nil; two
envelopes whose annotations agree on the reserved key get the same
description, so setting or deleting any other annotation changes nothing. -/
theorem ToTeleport_description {RoleSpecV6 : Type} (DescriptionKey : String)
    (r : TeleportRoleV7 RoleSpecV6) :
    (∀ v, r.Annotations.find DescriptionKey = some v →
      (r.ToTeleport DescriptionKey).Metadata.Description = v) ∧
    (r.Annotations.find DescriptionKey = none →
      (r.ToTeleport DescriptionKey).Metadata.Description = "") ∧
    (r.Annotations = GoMap.nil →
      (r.ToTeleport DescriptionKey).Metadata.Description = "") ∧
    (∀ r2 : TeleportRoleV7 RoleSpecV6,
      r2.Annotations.find DescriptionKey = r.Annotations.find DescriptionKey →
      (r2.ToTeleport DescriptionKey).Metadata.Description =
        (r.ToTeleport DescriptionKey).Metadata.Description) ∧
    (∀ k v, k ≠ DescriptionKey →
      ({ r with Annotations := r.Annotations.insert k v }.ToTeleport
          DescriptionKey).Metadata.Description =
        (r.ToTeleport DescriptionKey).Metadata.Description) ∧
    (∀ k, k ≠ DescriptionKey →
      ({ r with Annotations := r.Annotations.delete k }.ToTeleport
          DescriptionKey).Metadata.Description =
        (r.ToTeleport DescriptionKey).Metadata.Description) := by
  refine ⟨?_, ?_, ?_, ?_, ?_, ?_⟩
  · intro v hv
    simp [TeleportRoleV7.ToTeleport, GoMap.index, hv]
  · intro hn
    simp [TeleportRoleV7.ToTeleport, GoMap.index, hn]
  · intro hn
    simp [TeleportRoleV7.ToTeleport, GoMap.index, GoMap.find, hn]
  · intro r2 h2
    simp [TeleportRoleV7.ToTeleport, GoMap.index, h2]
  · intro k v hk
    simp [TeleportRoleV7.ToTeleport, GoMap.index, GoMap.find_insert_of_ne _ k v _ hk]
  · intro k hk
    simp [TeleportRoleV7.ToTeleport, GoMap.index, GoMap.find_delete_of_ne _ k _ hk]

/-- The description on the envelope of the first example scenario, on the
same envelope without the reserved annotation or without annotations, and on
the same envelope with one more annotation. -/
theorem ToTeleport_description_witness :
    (readerEnvelope.ToTeleport "desc-key").Metadata.Description = "read only" ∧
    ({ readerEnvelope with Annotations := GoMap.mk [("other", "y")] }.ToTeleport
      "desc-key").Metadata.Description = "" ∧
    ({ readerEnvelope with Annotations := GoMap.nil }.ToTeleport
      "desc-key").Metadata.Description = "" ∧
    ({ readerEnvelope with
        Annotations := GoMap.mk [("other", "y"), ("desc-key", "read only")] }.ToTeleport
      "desc-key").Metadata.Description = "read only" ∧
    ({ readerEnvelope with
        Annotations := readerEnvelope.Annotations.insert "other" "y" }.ToTeleport
      "desc-key").Metadata.Description = "read only" ∧
    ({ readerEnvelope with
        Annotations := readerEnvelope.Annotations.delete "other" }.ToTeleport
      "desc-key").Metadata.Description = "read only" :=
  ⟨(ToTeleport_description "desc-key" readerEnvelope).1 "read only" (by decide),
   (ToTeleport_description "desc-key"
      { readerEnvelope with Annotations := GoMap.mk [("other", "y")] }).2.1 (by decide),
   (ToTeleport_description "desc-key"
      { readerEnvelope with Annotations := GoMap.nil }).2.2.1 rfl,
   ((ToTeleport_description "desc-key" readerEnvelope).2.2.2.1
      { readerEnvelope with
        Annotations := GoMap.mk [("other", "y"), ("desc-key", "read only")] }
      (by decide)).trans
    ((ToTeleport_description "desc-key" readerEnvelope).1 "read only" (by decide)),
   ((ToTeleport_description "desc-key" readerEnvelope).2.2.2.2.1 "other" "y"
      (by decide)).trans
    ((ToTeleport_description "desc-key" readerEnvelope).1 "read only" (by decide)),
   ((ToTeleport_description "desc-key" readerEnvelope).2.2.2.2.2 "other"
      (by decide)).trans
    ((ToTeleport_description "desc-key" readerEnvelope).1 "read only" (by decide))⟩

/-- Claim C3: the specification of the domain object is the specification
of the envelope converted to the domain type, a conversion that changes
nothing: converting back gives the specification of the envelope, and every
field read from the one is the field read from the other. -/
theorem ToTeleport_spec {RoleSpecV6 : Type} (DescriptionKey : String)
    (r : TeleportRoleV7 RoleSpecV6) :
    (r.ToTeleport DescriptionKey).Spec = r.Spec.toRoleSpecV6 ∧
    TeleportRoleV7Spec.mk (r.ToTeleport DescriptionKey).Spec = r.Spec ∧
    ∀ (β : Type) (field : RoleSpecV6 → β),
      field (r.ToTeleport DescriptionKey).Spec = field r.Spec.toRoleSpecV6 :=
  ⟨rfl, rfl, fun _ _ => rfl⟩

/-- Claim C4: the domain object has kind `role` and version `v7`, and
replacing the kind and version discriminators of the envelope by any others
gives the same domain object. -/
theorem ToTeleport_kind_version {RoleSpecV6 : Type} (DescriptionKey : String)
    (r : TeleportRoleV7 RoleSpecV6) :
    (r.ToTeleport DescriptionKey).Kind = "role" ∧
    (r.ToTeleport DescriptionKey).Version = "v7" ∧
    ∀ tm : TypeMeta,
      { r with toTypeMeta := tm }.ToTeleport DescriptionKey =
        r.ToTeleport DescriptionKey :=
  ⟨rfl, rfl, fun _ => rfl⟩

/-! ## Codec -/

theorem exampleDecode_map (rules acc : List Nat) (hr : ∀ r ∈ rules, r < 255) :
    exampleDecode acc (rules.map (fun r => Fin.ofNat r)) = (acc ++ rules, none) := by
  induction rules generalizing acc with
  | nil => simp [exampleDecode]
  | cons x xs ih =>
    have hx : x < 255 := hr x (List.mem_cons_self x xs)
    have hxs : ∀ r ∈ xs, r < 255 := fun r hm => hr r (List.mem_cons_of_mem x hm)
    have hv : (Fin.ofNat x : Fin 256).val = x := by
      simp only [Fin.ofNat]
      omega
    have hne : ¬ x = 255 := by omega
    simp only [List.map_cons, exampleDecode, hv, if_neg hne]
    rw [ih (acc ++ [x]) hxs]
    simp

theorem exampleCodec_roundTrip : DomainRoundTrip exampleCodec exampleValid := by
  intro d hd
  refine ⟨d.Rules.map (fun r => Fin.ofNat r), ?_, ?_⟩
  · have hall : (d.Rules.all fun r => decide (r < 255)) = true := by
      simpa [List.all_eq_true] using hd
    simp only [exampleCodec, hall, if_true]
  · simp [exampleCodec, exampleDecode_map d.Rules [] hd]

/-- Claim C5: when the domain codec obeys its round-trip law, so does the
codec of `TeleportRoleV7Spec`: for every valid spec `s`, `Marshal` returns
bytes and no error, and `Unmarshal` of these bytes into the zero value
`TeleportRoleV7Spec{}` returns no error and leaves the receiver equal to `s`. -/
theorem Marshal_Unmarshal_roundTrip {RoleSpecV6 : Type} (c : RoleSpecV6Codec RoleSpecV6)
    (valid : RoleSpecV6 → Prop) (hlaw : DomainRoundTrip c valid)
    (s : TeleportRoleV7Spec RoleSpecV6) (hs : valid s.toRoleSpecV6) :
    ∃ b, TeleportRoleV7Spec.Marshal c s = Except.ok b ∧
      TeleportRoleV7Spec.Unmarshal c (TeleportRoleV7Spec.mk c.zero) b = (s, none) := by
  obtain ⟨b, hm, hu⟩ := hlaw s.toRoleSpecV6 hs
  refine ⟨b, hm, ?_⟩
  simp [TeleportRoleV7Spec.Unmarshal, hu]

/-- The round trip on a spec with two rules and on the spec with an empty
rule set, for the example codec. -/
theorem Marshal_Unmarshal_roundTrip_witness :
    (∃ b, TeleportRoleV7Spec.Marshal exampleCodec (TeleportRoleV7Spec.mk { Rules := [1, 2] })
        = Except.ok b ∧
      TeleportRoleV7Spec.Unmarshal exampleCodec (TeleportRoleV7Spec.mk exampleCodec.zero) b
        = (TeleportRoleV7Spec.mk { Rules := [1, 2] }, none)) ∧
    (∃ b, TeleportRoleV7Spec.Marshal exampleCodec (TeleportRoleV7Spec.mk { Rules := [] })
        = Except.ok b ∧
      TeleportRoleV7Spec.Unmarshal exampleCodec (TeleportRoleV7Spec.mk exampleCodec.zero) b
        = (TeleportRoleV7Spec.mk { Rules := [] }, none)) :=
  ⟨Marshal_Unmarshal_roundTrip exampleCodec exampleValid exampleCodec_roundTrip
      (TeleportRoleV7Spec.mk { Rules := [1, 2] }) (by decide),
   Marshal_Unmarshal_roundTrip exampleCodec exampleValid exampleCodec_roundTrip
      (TeleportRoleV7Spec.mk { Rules := [] }) (by decide)⟩

/-- Claim C10: `Marshal` on a `TeleportRoleV7Spec` returns what the domain
codec's `Marshal` returns on the spec converted to the domain type, the same
bytes or the same error, so it fails only when the domain codec fails; and
`Unmarshal` of any bytes leaves in the receiver what the domain codec's
`Unmarshal` leaves in it, and returns the same error or absence of error. -/
theorem Marshal_Unmarshal_delegate {RoleSpecV6 : Type} (c : RoleSpecV6Codec RoleSpecV6)
    (s : TeleportRoleV7Spec RoleSpecV6) :
    TeleportRoleV7Spec.Marshal c s = c.Marshal s.toRoleSpecV6 ∧
    (∀ e, TeleportRoleV7Spec.Marshal c s = Except.error e →
      c.Marshal s.toRoleSpecV6 = Except.error e) ∧
    ∀ b : Bytes,
      (TeleportRoleV7Spec.Unmarshal c s b).1.toRoleSpecV6 = (c.Unmarshal s.toRoleSpecV6 b).1 ∧
      (TeleportRoleV7Spec.Unmarshal c s b).2 = (c.Unmarshal s.toRoleSpecV6 b).2 :=
  ⟨rfl, fun _ he => he, fun _ => ⟨rfl, rfl⟩⟩

/-- The delegation on a spec that the example codec cannot encode: the error
of `Marshal` is the error of the domain codec. -/
theorem Marshal_Unmarshal_delegate_witness :
    TeleportRoleV7Spec.Marshal exampleCodec (TeleportRoleV7Spec.mk { Rules := [300] })
      = Except.error "rule out of range" ∧
    exampleCodec.Marshal { Rules := [300] } = Except.error "rule out of range" :=
  ⟨rfl,
   (Marshal_Unmarshal_delegate exampleCodec (TeleportRoleV7Spec.mk { Rules := [300] })).2.1
      "rule out of range" rfl⟩

/-! ## Status accessor -/

/-- Claim C9: the pointer that `StatusConditions` returns is the address of
the envelope's own `Status.Conditions`: a read through it gives that sequence
as it is, and an assignment of `c` through it gives an envelope whose
`Status.Conditions` is `c` (which a later read returns), with the same type
and object metadata and the same `Spec`. -/
theorem StatusConditions_access {RoleSpecV6 : Type} (r : TeleportRoleV7 RoleSpecV6) :
    TeleportRoleV7.StatusConditions.load r = r.Status.Conditions ∧
    ∀ c : List Condition,
      (TeleportRoleV7.StatusConditions.store c r).Status.Conditions = c ∧
      TeleportRoleV7.StatusConditions.load (TeleportRoleV7.StatusConditions.store c r) = c ∧
      (TeleportRoleV7.StatusConditions.store c r).toObjectMeta = r.toObjectMeta ∧
      (TeleportRoleV7.StatusConditions.store c r).toTypeMeta = r.toTypeMeta ∧
      (TeleportRoleV7.StatusConditions.store c r).Spec = r.Spec :=
  ⟨rfl, fun _ => ⟨rfl, rfl, rfl, rfl, rfl⟩⟩

/-! ## Deep copy -/

/-- Claim C6: when the codec round trip succeeds on the source value `s`
(`Marshal` returns bytes, and `Unmarshal` of them into the zero value returns
no error and yields `s`), `DeepCopyInto` returns normally, the destination
then holds `s`, the source still holds `s`, no other address changes, and
the outcome is the same whatever the destination held before the call. -/
theorem DeepCopyInto_copy {RoleSpecV6 : Type} (c : RoleSpecV6Codec RoleSpecV6)
    (spec out : Nat) (h : SpecHeap RoleSpecV6) (data : Bytes)
    (hm : TeleportRoleV7Spec.Marshal c (h spec) = Except.ok data)
    (hu : TeleportRoleV7Spec.Unmarshal c (TeleportRoleV7Spec.mk c.zero) data
      = (h spec, none)) :
    ∃ h2, TeleportRoleV7Spec.DeepCopyInto c spec out h = Except.ok h2 ∧
      h2 out = h spec ∧ h2 spec = h spec ∧ (∀ p, p ≠ out → h2 p = h p) ∧
      ∀ d, out ≠ spec →
        TeleportRoleV7Spec.DeepCopyInto c spec out (Function.update h out d) = Except.ok h2 := by
  have key : ∀ g : SpecHeap RoleSpecV6, g spec = h spec →
      TeleportRoleV7Spec.DeepCopyInto c spec out g
        = Except.ok (Function.update g out (h spec)) := by
    intro g hg
    simp only [TeleportRoleV7Spec.DeepCopyInto, hg, hm, Function.update_same, hu,
      Function.update_idem]
  refine ⟨Function.update h out (h spec), key h rfl, ?_, ?_, ?_, ?_⟩
  · simp
  · by_cases hso : spec = out
    · subst hso; simp
    · simp [Function.update_noteq hso]
  · intro p hp
    simp [Function.update_noteq hp]
  · intro d hne
    have hg : Function.update h out d spec = h spec :=
      Function.update_noteq (fun hso => hne hso.symm) d h
    rw [key _ hg, Function.update_idem]

/-- The copy of the value at address 0 (rules 1 and 2) into address 1, which
held rule 9, for the example codec. -/
theorem DeepCopyInto_copy_witness :
    ∃ h2, TeleportRoleV7Spec.DeepCopyInto exampleCodec 0 1 exampleHeap = Except.ok h2 ∧
      h2 1 = exampleHeap 0 ∧ h2 0 = exampleHeap 0 ∧ (∀ p, p ≠ 1 → h2 p = exampleHeap p) ∧
      ∀ d, 1 ≠ 0 →
        TeleportRoleV7Spec.DeepCopyInto exampleCodec 0 1 (Function.update exampleHeap 1 d)
          = Except.ok h2 :=
  DeepCopyInto_copy exampleCodec 0 1 exampleHeap [1, 2] rfl rfl

/-- Claim C7: `DeepCopyInto` panics exactly when `Marshal` of the source
returns an error, or returns bytes whose `Unmarshal` into the zero value
returns an error; and when it returns normally, `Marshal` of the source
returned bytes, the destination holds the value that `Unmarshal` of these
bytes into the zero value yields without error, and no other address
changed. -/
theorem DeepCopyInto_panics_iff {RoleSpecV6 : Type} (c : RoleSpecV6Codec RoleSpecV6)
    (spec out : Nat) (h : SpecHeap RoleSpecV6) :
    ((∃ e h2, TeleportRoleV7Spec.DeepCopyInto c spec out h = Except.error (e, h2)) ↔
      ((∃ e, TeleportRoleV7Spec.Marshal c (h spec) = Except.error e) ∨
       (∃ data e, TeleportRoleV7Spec.Marshal c (h spec) = Except.ok data ∧
          (TeleportRoleV7Spec.Unmarshal c (TeleportRoleV7Spec.mk c.zero) data).2 = some e))) ∧
    (∀ h2, TeleportRoleV7Spec.DeepCopyInto c spec out h = Except.ok h2 →
      ∃ data, TeleportRoleV7Spec.Marshal c (h spec) = Except.ok data ∧
        TeleportRoleV7Spec.Unmarshal c (TeleportRoleV7Spec.mk c.zero) data = (h2 out, none) ∧
        ∀ p, p ≠ out → h2 p = h p) := by
  cases hm : TeleportRoleV7Spec.Marshal c (h spec) with
  | error err =>
    refine ⟨⟨fun _ => Or.inl ⟨err, rfl⟩, fun _ => ⟨err, h, ?_⟩⟩, ?_⟩
    · simp [TeleportRoleV7Spec.DeepCopyInto, hm]
    · intro h2 hret
      simp [TeleportRoleV7Spec.DeepCopyInto, hm] at hret
  | ok data =>
    cases hu : (TeleportRoleV7Spec.Unmarshal c (TeleportRoleV7Spec.mk c.zero) data).2 with
    | some err =>
      refine ⟨⟨fun _ => Or.inr ⟨data, err, rfl, hu⟩, fun _ => ⟨err,
        Function.update (Function.update h out (TeleportRoleV7Spec.mk c.zero)) out
          (TeleportRoleV7Spec.Unmarshal c (TeleportRoleV7Spec.mk c.zero) data).1, ?_⟩⟩, ?_⟩
      · simp only [TeleportRoleV7Spec.DeepCopyInto, hm, Function.update_same, hu]
      · intro h2 hret
        simp [TeleportRoleV7Spec.DeepCopyInto, hm, hu] at hret
    | none =>
      refine ⟨⟨?_, ?_⟩, ?_⟩
      · rintro ⟨e, h2, hp⟩
        simp [TeleportRoleV7Spec.DeepCopyInto, hm, hu] at hp
      · rintro (⟨e, he⟩ | ⟨data2, e, hd, he⟩)
        · cases he
        · cases hd
          rw [hu] at he
          cases he
      · intro h2 hret
        simp only [TeleportRoleV7Spec.DeepCopyInto, hm, Function.update_same, hu,
          Function.update_idem, Except.ok.injEq] at hret
        subst hret
        refine ⟨data, rfl, ?_, ?_⟩
        · rw [Function.update_same]
          exact Prod.ext rfl hu
        · intro p hp
          simp [Function.update_noteq hp]

/-- The panic on the value at address 2, whose rule 300 the example codec
cannot encode, and the normal return on the value at address 0. -/
theorem DeepCopyInto_panics_iff_witness :
    (∃ e h2, TeleportRoleV7Spec.DeepCopyInto exampleCodec 2 1 exampleHeap
      = Except.error (e, h2)) ∧
    (∃ data, TeleportRoleV7Spec.Marshal exampleCodec (exampleHeap 0) = Except.ok data ∧
      TeleportRoleV7Spec.Unmarshal exampleCodec (TeleportRoleV7Spec.mk exampleCodec.zero) data
        = (Function.update
            (Function.update exampleHeap 1 (TeleportRoleV7Spec.mk exampleCodec.zero)) 1
            (TeleportRoleV7Spec.mk { Rules := [1, 2] }) 1, none) ∧
      ∀ p, p ≠ 1 →
        Function.update
          (Function.update exampleHeap 1 (TeleportRoleV7Spec.mk exampleCodec.zero)) 1
          (TeleportRoleV7Spec.mk { Rules := [1, 2] }) p = exampleHeap p) :=
  ⟨(DeepCopyInto_panics_iff exampleCodec 2 1 exampleHeap).1.mpr
      (Or.inl ⟨"rule out of range", rfl⟩),
   (DeepCopyInto_panics_iff exampleCodec 0 1 exampleHeap).2 _ rfl⟩

/-! ## Condition uniqueness -/

theorem upsertCondition_types (now : Nat) (c : Condition) (cs : List Condition) :
    (upsertCondition now c cs).map Condition.Type_ =
      if c.Type_ ∈ cs.map Condition.Type_ then cs.map Condition.Type_
      else cs.map Condition.Type_ ++ [c.Type_] := by
  induction cs with
  | nil => simp [upsertCondition]
  | cons x xs ih =>
    by_cases hx : x.Type_ = c.Type_
    · simp [upsertCondition, hx]
    · have hx2 : ¬ c.Type_ = x.Type_ := fun hc => hx hc.symm
      simp only [upsertCondition, hx, if_false, List.map_cons, ih, List.mem_cons, hx2,
        false_or]
      split <;> simp

theorem upsertCondition_unique (now : Nat) (c : Condition) (cs : List Condition)
    (hcs : UniqueTypes cs) : UniqueTypes (upsertCondition now c cs) := by
  unfold UniqueTypes at *
  rw [upsertCondition_types]
  split
  · exact hcs
  · rename_i hmem
    rw [List.nodup_append]
    refine ⟨hcs, List.nodup_singleton _, ?_⟩
    intro a ha hb
    rw [List.mem_singleton] at hb
    exact hmem (hb ▸ ha)

/-- Claim C8, as stated, fails: the envelope of the first example scenario
has no condition at all, and after the assignment through the accessor of a
sequence of two conditions of type `Ready`, two conditions of its
`Status.Conditions` share the same type. -/
theorem conditions_unique_counterexample :
    UniqueTypes readerEnvelope.Status.Conditions ∧
    ¬ UniqueTypes
      (TeleportRoleV7.StatusConditions.store [readyPending, readyApplied]
        readerEnvelope).Status.Conditions := by
  decide

/-- Claim C8, amended: when no two conditions of an envelope share the same
type, no two conditions share the same type after any sequence of upserts by
type made through the accessor. -/
theorem upserts_keep_types_unique {RoleSpecV6 : Type} (r : TeleportRoleV7 RoleSpecV6)
    (hr : UniqueTypes r.Status.Conditions) (us : List (Nat × Condition)) :
    UniqueTypes (us.foldl upsertThroughAccessor r).Status.Conditions := by
  induction us generalizing r with
  | nil => exact hr
  | cons u us ih =>
    rw [List.foldl_cons]
    apply ih
    exact upsertCondition_unique u.1 u.2 r.Status.Conditions hr

/-- Two upserts of type `Ready` on the envelope of the first example
scenario leave one condition of that type. -/
theorem upserts_keep_types_unique_witness :
    UniqueTypes readerEnvelope.Status.Conditions ∧
    UniqueTypes
      ([(5, readyPending), (7, readyApplied)].foldl upsertThroughAccessor
        readerEnvelope).Status.Conditions :=
  ⟨by decide, upserts_keep_types_unique readerEnvelope (by decide)
    [(5, readyPending), (7, readyApplied)]⟩

end TeleportOperator
